import Mathlib

/-!
Verification of the identifier-resolution pipeline of the id-mcp-reader
server (src/index.ts). The mutable process-wide namespace is modelled by
explicit state passing, the network record lookup by an oracle function,
and each handler by a pure function from the request arguments and the
current state to the new state and an Except result.
-/

namespace IdMcp

/-- Error values thrown as McpError in the source: the error code plus the
human-readable message. Internal errors wrap lower-level failures of the
network client, which is treated as a black box here. -/
inductive Err where
  | invalidParams (msg : String)
  | internalError (msg : String)
deriving DecidableEq, Repr

/-- Model of the JavaScript prod test s.startsWith(p): p is a prefix of s,
compared character by character. -/
def strStartsWith (s p : String) : Bool :=
  p.data.isPrefixOf s.data

/-- Substring search on character lists: pat occurs somewhere in the list. -/
def hasSubList (pat : List Char) : List Char → Bool
  | [] => pat.isPrefixOf []
  | c :: rest => pat.isPrefixOf (c :: rest) || hasSubList pat rest

/-- Model of the JavaScript test s.includes(pat). -/
def strIncludes (s pat : String) : Bool :=
  hasSubList pat.data s.data

/-- Split a character list at every occurrence of the separator character,
accumulating the current piece in reverse. -/
def splitCharAux (sep : Char) : List Char → List Char → List String
  | [], acc => [String.mk acc.reverse]
  | c :: rest, acc =>
    if c == sep then String.mk acc.reverse :: splitCharAux sep rest []
    else splitCharAux sep rest (c :: acc)

/-- Model of the JavaScript call s.split(sep) for a one-character separator,
the only form the source uses: splitting the empty string gives one empty
piece, and every separator occurrence starts a new piece. -/
def splitChar (s : String) (sep : Char) : List String :=
  splitCharAux sep s.data []

/-- Model of the JavaScript call s.toLowerCase(), character by character. -/
def strToLower (s : String) : String :=
  ⟨s.data.map Char.toLower⟩

/-- Model of id.replace with the anchored pattern matching id: or idx:
(line 179 and line 272 of the source): strip one leading scheme tag. The
alternative id: is tried first, as in the regex. -/
def stripScheme (s : String) : String :=
  if strStartsWith s "id:" then s.drop 3
  else if strStartsWith s "idx:" then s.drop 4
  else s

/-- Model of currentNamespace.replace with the anchored pattern id:
(line 188 of the source): strip one leading id: tag only. -/
def stripIdScheme (s : String) : String :=
  if strStartsWith s "id:" then s.drop 3 else s

/-- JavaScript truthiness of the currentNamespace variable: null and the
empty string are both falsy. -/
def nsIsUnset : Option String → Bool
  | none => true
  | some n => n == ""

/-- The placeholder RPC sentinel from the source. -/
def rpcPlaceholder : String := "<YOUR-RPC-URL-HERE>"

/-- The configuration error message raised when the RPC URL is the
placeholder (lines 288 to 299 of the source). -/
def rpcConfigMsg : String :=
  "Please set your own RPC_URL.\n\nGet a free API key from:\n• Alchemy: https://alchemy.com\n• Infura: https://infura.io\n• QuickNode: https://quicknode.com\n\nThen update your MCP server configuration with:\n\"env\": \x7b \"RPC_URL\": \"https://eth-mainnet.g.alchemy.com/v2/YOUR_API_KEY\" \x7d"

/-- The validation error message for a missing scheme tag (line 304). -/
def missingSchemeMsg : String :=
  "ID must start with \x27id:\x27 or \x27idx:\x27 prefix"

/-- The configuration error message for shorthand use without a
namespace (line 185). -/
def noNamespaceMsg : String :=
  "No namespace set for shorthand ID. Use id_set_namespace first."

/-- The validation error message of the empty-identifier guard
(line 195). -/
def emptyIdMsg : String := "Invalid ID format. Cannot be empty."

/-- The validation error message of the namespace setter (line 391). -/
def nsSchemeMsg : String := "Namespace must start with \x27id:\x27 prefix"

/-- The validation error message of the namespace getter (line 411). -/
def noNsSetMsg : String := "No namespace is currently set"

/-- Lines 193 to 205 of the source: the tail of idToEnsName acting on the
list of dot-separated parts. An empty parts list is rejected, a single
part gets the .eth suffix, two or more parts are reversed, dot-joined and
suffixed. -/
def ensFromParts (parts : List String) : Except Err String :=
  if parts.length < 1 then .error (.invalidParams emptyIdMsg)
  else if parts.length = 1 then .ok (parts.headD "" ++ ".eth")
  else .ok (String.intercalate "." parts.reverse ++ ".eth")

/-- Lines 177 to 206 of the source: strip the scheme tag, expand the
apostrophe shorthand from the current namespace, split on dots and build
the ENS name. -/
def idToEnsName (id : String) (currentNamespace : Option String) :
    Except Err String :=
  let cleanId := stripScheme id
  if strStartsWith cleanId "\x27" then
    if nsIsUnset currentNamespace then
      .error (.invalidParams noNamespaceMsg)
    else
      let namespaceContent := stripIdScheme (currentNamespace.getD "")
      let resolvedId := namespaceContent ++ "." ++ cleanId.drop 1
      ensFromParts (splitChar resolvedId '.')
  else
    ensFromParts (splitChar cleanId '.')

/-- Lines 255 to 266 of the source: return content unchanged for
startLine zero, empty string once startLine reaches the line count, and
otherwise the lines from startLine onward. Array.slice semantics of
JavaScript are kept for negative startLine: the start index counts from
the end, clamped at zero. -/
def extractLines (content : String) (startLine : Int) : String :=
  if startLine == 0 then content
  else
    let lines := splitChar content '\n'
    if (lines.length : Int) ≤ startLine then ""
    else
      let b : Int :=
        if startLine < 0 then max ((lines.length : Int) + startLine) 0
        else startLine
      String.intercalate "\n" (lines.drop b.toNat)

/-- Lines 271 to 283 of the source: a full path (no apostrophe) with a dot
and at least two parts overwrites the namespace with everything but the
last part, dot-joined; every other identifier leaves the state alone. -/
def parseIdAndUpdateNamespace (id : String) (ns : Option String) :
    Option String :=
  let cleanId := stripScheme id
  if !strStartsWith cleanId "\x27" && strIncludes cleanId "." then
    let parts := splitChar cleanId '.'
    if 2 ≤ parts.length then
      some (String.intercalate "." parts.dropLast)
    else ns
  else ns

/-- The formatted response block of the plain tool (lines 332 to 339). -/
def formatIdResponse (id ensName : String) (startLine : Int)
    (finalContent : String) : String :=
  "--- ID Metadata ---\nID: " ++ id ++ "\nENS Name: " ++ ensName ++
    "\nSource: ENS Text Record (root-context)\nStart Line: " ++
    toString startLine ++ "\n\n--- Content ---\n" ++ finalContent

/-- Scan for the first occurrence of pat and splice in rep there. -/
def replaceFirstAux (pat rep : List Char) : List Char → List Char
  | [] => []
  | c :: rest =>
    if pat.isPrefixOf (c :: rest) then rep ++ (c :: rest).drop pat.length
    else c :: replaceFirstAux pat rep rest

/-- Model of JavaScript String.replace with a plain string pattern: only
the first occurrence is replaced. -/
def replaceFirst (s pat rep : String) : String :=
  ⟨replaceFirstAux pat.data rep.data s.data⟩

/-- Lines 358 to 371 of the source: the suggested-execution hint chosen
by case-insensitive substring sniffing, first matching rule wins. -/
def executionSuggestion (contentText : String) : String :=
  let lowerContent := strToLower contentText
  if strIncludes lowerContent "html" && strIncludes lowerContent "javascript" then
    "💡 Suggested execution: `open filename.html` (replace with your desired filename)"
  else if strIncludes lowerContent "#!/bin/bash" || strIncludes lowerContent "bash" || strIncludes lowerContent "shell" then
    "💡 Suggested execution: `bash filename.sh` (replace with your desired filename)"
  else if strIncludes lowerContent "python" || strIncludes lowerContent "#!/usr/bin/env python" then
    "💡 Suggested execution: `python filename.py` (replace with your desired filename)"
  else if strIncludes lowerContent "node" || strIncludes lowerContent "javascript" || strIncludes lowerContent "npm" then
    "💡 Suggested execution: `node filename.js` (replace with your desired filename)"
  else
    "💡 Create the appropriate file and execute immediately"

/-- Arguments of the id and idx tools; start_line defaults to zero. -/
structure ToolArgs where
  id : String
  start_line : Int := 0
deriving DecidableEq, Repr

/-- Lines 285 to 343 of the source, with the network lookup
(resolveEnsTextRecord) abstracted as the fetch oracle. Returns the new
namespace state together with the response text or the thrown error. The
RPC placeholder gate runs first, then the scheme-tag check, then the
namespace side effect, then name conversion, fetch and line slicing. -/
def handleIdTool (rpcUrl : String) (fetch : String → Except Err String)
    (ns : Option String) (args : ToolArgs) :
    Option String × Except Err String :=
  if rpcUrl == rpcPlaceholder then
    (ns, .error (.invalidParams rpcConfigMsg))
  else if !strStartsWith args.id "id:" && !strStartsWith args.id "idx:" then
    (ns, .error (.invalidParams missingSchemeMsg))
  else
    let ns1 := parseIdAndUpdateNamespace args.id ns
    match idToEnsName args.id ns1 with
    | .error e => (ns1, .error e)
    | .ok ensName =>
      match fetch ensName with
      | .error e => (ns1, .error e)
      | .ok content =>
        let finalContent := extractLines content args.start_line
        (ns1, .ok (formatIdResponse args.id ensName args.start_line finalContent))

/-- Lines 345 to 385 of the source: delegate to the plain tool, relabel
the header of the first response, fetch a second time through the plain
tool to obtain the text that is sniffed for the execution hint, and
assemble the execution-flavoured reply. -/
def handleIdxTool (rpcUrl : String) (fetch : String → Except Err String)
    (ns : Option String) (args : ToolArgs) :
    Option String × Except Err String :=
  match handleIdTool rpcUrl fetch ns args with
  | (ns1, .error e) => (ns1, .error e)
  | (ns1, .ok originalText) =>
    let modifiedText :=
      replaceFirst originalText "--- ID Metadata ---" "--- IDX Execution Context ---"
    match handleIdTool rpcUrl fetch ns1 args with
    | (ns2, .error e) => (ns2, .error e)
    | (ns2, .ok contentText) =>
      (ns2, .ok (modifiedText ++
        "\n\n--- Execution Ready ---\nThis content is prepared for immediate execution.\n" ++
        executionSuggestion contentText))

/-- Lines 387 to 407 of the source: require the id: tag, store the value
with the tag stripped, no dot requirement. -/
def handleSetNamespace (namespaceValue : String) (ns : Option String) :
    Option String × Except Err String :=
  if !strStartsWith namespaceValue "id:" then
    (ns, .error (.invalidParams nsSchemeMsg))
  else
    let cleanNamespace := stripIdScheme namespaceValue
    (some cleanNamespace, .ok ("Namespace set to: " ++ namespaceValue))

/-- Lines 409 to 422 of the source: fail when unset (or empty, by
JavaScript truthiness), else re-attach the id: tag. -/
def handleGetNamespace (ns : Option String) : Except Err String :=
  if nsIsUnset ns then .error (.invalidParams noNsSetMsg)
  else .ok ("id:" ++ ns.getD "")

/-- The four tool invocations of the server, the observable operations on
the shared namespace state. -/
inductive Op where
  | callId (args : ToolArgs)
  | callIdx (args : ToolArgs)
  | callSet (namespaceValue : String)
  | callGet
deriving DecidableEq, Repr

/-- One request served by the dispatcher: the state transition of the
namespace cell together with the response. -/
def stepNs (rpcUrl : String) (fetch : String → Except Err String) :
    Op → Option String → Option String × Except Err String
  | .callId a, ns => handleIdTool rpcUrl fetch ns a
  | .callIdx a, ns => handleIdxTool rpcUrl fetch ns a
  | .callSet v, ns => handleSetNamespace v ns
  | .callGet, ns => (ns, handleGetNamespace ns)

/-- A fetch oracle returning the same record value for every name. -/
def constFetch (v : String) : String → Except Err String :=
  fun _ => .ok v

/-- The response text of a successful tool result, empty when it failed. -/
def getText (r : Option String × Except Err String) : String :=
  match r.2 with
  | .ok s => s
  | .error _ => ""

/-! Helper lemmas about the string model. -/

theorem data_ne_nil {s : String} (h : s ≠ "") : s.data ≠ [] := by
  intro hd
  exact h (String.ext (by rw [hd]))

theorem strStartsWith_append (p t : String) : strStartsWith (p ++ t) p = true := by
  simp only [strStartsWith, String.data_append, List.isPrefixOf_iff_prefix]
  exact List.prefix_append _ _

theorem drop_append (p t : String) : (p ++ t).drop p.data.length = t := by
  apply String.ext
  rw [String.data_drop, String.data_append]
  exact List.drop_left _ _

theorem strStartsWith_char {p : String} {c : Char} (hc : p.data = [c])
    (N r : String) (h : N.data ≠ []) :
    strStartsWith (N ++ r) p = strStartsWith N p := by
  unfold strStartsWith
  rw [hc, String.data_append]
  cases hN : N.data with
  | nil => exact absurd hN h
  | cons a t => simp [List.isPrefixOf]

theorem stripScheme_id (x : String) : stripScheme ("id:" ++ x) = x := by
  unfold stripScheme
  rw [strStartsWith_append, if_pos rfl]
  exact drop_append "id:" x

theorem idxNotId (x : String) : strStartsWith ("idx:" ++ x) "id:" = false := rfl

theorem stripScheme_idx (x : String) : stripScheme ("idx:" ++ x) = x := by
  unfold stripScheme
  rw [idxNotId, if_neg (by simp), strStartsWith_append, if_pos rfl]
  exact drop_append "idx:" x

theorem stripIdScheme_id (x : String) : stripIdScheme ("id:" ++ x) = x := by
  unfold stripIdScheme
  rw [strStartsWith_append, if_pos rfl]
  exact drop_append "id:" x

theorem stripIdScheme_of_not (N : String) (h : strStartsWith N "id:" = false) :
    stripIdScheme N = N := by
  unfold stripIdScheme
  rw [h]
  rfl

theorem nsIsUnset_some {t : String} (h : t ≠ "") : nsIsUnset (some t) = false := by
  simpa [nsIsUnset] using h

/-! Theorems for the claims. -/

/-- Claim C1: toExternalName, the tail of idToEnsName acting on prefix-stripped,
shorthand-expanded segments, maps one segment X to X plus the .eth suffix, maps
two or more segments to the reversed dot-join plus .eth, and never fails on a
non-empty segment sequence. -/
theorem ensName_of_segments (parts : List String) (h : parts ≠ []) :
    (∀ x, parts = [x] → ensFromParts parts = .ok (x ++ ".eth")) ∧
    (2 ≤ parts.length →
      ensFromParts parts = .ok (String.intercalate "." parts.reverse ++ ".eth")) ∧
    (∃ s, ensFromParts parts = .ok s) := by
  cases parts with
  | nil => exact absurd rfl h
  | cons a t =>
    cases t with
    | nil =>
      refine ⟨?_, ?_, ⟨a ++ ".eth", rfl⟩⟩
      · intro x hx
        have hax : a = x := by injection hx
        subst hax
        rfl
      · intro h2
        simp at h2
    | cons b u =>
      have hbig : ensFromParts (a :: b :: u) =
          .ok (String.intercalate "." (a :: b :: u).reverse ++ ".eth") := by
        unfold ensFromParts
        have h1 : ¬ (a :: b :: u).length < 1 := by
          simp only [List.length_cons]
          omega
        have h2 : ¬ (a :: b :: u).length = 1 := by
          simp only [List.length_cons]
          omega
        rw [if_neg h1, if_neg h2]
      refine ⟨?_, fun _ => hbig, ⟨_, hbig⟩⟩
      intro x hx
      simp at hx

/-- Witness for C1 at the two-segment example from the specification. -/
theorem ensName_of_segments_witness :
    ["core", "subname"] ≠ ([] : List String) ∧
    ensFromParts ["core", "subname"] = .ok "subname.core.eth" := by
  refine ⟨by decide, ?_⟩
  have h := (ensName_of_segments ["core", "subname"] (by decide)).2.1 (by decide)
  exact h.trans (by rfl)

/-- Claim C6 (violated by the code): the guard that should reject an empty
remainder is unreachable, because splitting any string on a dot yields at
least one part. The exact identifier id: is converted to the external name
.eth and handed to the network lookup instead of being rejected with the
cannot-be-empty validation error. -/
theorem emptyRemainder_behavior :
    stripScheme "id:" = "" ∧
    idToEnsName "id:" none = .ok ".eth" := by
  exact ⟨rfl, by rfl⟩

/-- Claim C8: for a non-negative start line, extractLines returns the content
unchanged at zero, the empty string once the start line reaches the line
count, and otherwise the newline-join of the lines from that index onward. -/
theorem extractLines_nonneg_spec (content : String) (n : Nat) :
    extractLines content (n : Int) =
      if n = 0 then content
      else if (splitChar content '\n').length ≤ n then ""
      else String.intercalate "\n" ((splitChar content '\n').drop n) := by
  by_cases h0 : n = 0
  · subst h0
    simp [extractLines]
  · have h1 : ((n : Int) == 0) = false := by
      simpa using h0
    unfold extractLines
    rw [h1, if_neg (by simp), if_neg h0]
    by_cases hl : (splitChar content '\n').length ≤ n
    · rw [if_pos (by exact_mod_cast hl), if_pos hl]
    · rw [if_neg (by exact_mod_cast hl), if_neg hl]
      have hneg : ¬ ((n : Int) < 0) := by
        simp
      rw [if_neg hneg]
      simp

/-- Claim C10: for a negative start line whose absolute value is at most the
line count, extractLines follows the negative-index semantics of
Array.slice in JavaScript and returns the last that-many lines,
newline-joined. -/
theorem extractLines_negative_slice (content : String) (k : Nat)
    (h1 : 0 < k) (h2 : k ≤ (splitChar content '\n').length) :
    extractLines content (-(k : Int)) =
      String.intercalate "\n"
        ((splitChar content '\n').drop ((splitChar content '\n').length - k)) := by
  unfold extractLines
  have hz : ((-(k : Int)) == 0) = false := by
    simp
    omega
  rw [hz, if_neg (by simp)]
  have hle : ¬ (((splitChar content '\n').length : Int) ≤ -(k : Int)) := by
    have : (0 : Int) ≤ ((splitChar content '\n').length : Int) := by positivity
    omega
  rw [if_neg hle]
  have hlt : (-(k : Int)) < 0 := by omega
  rw [if_pos hlt]
  have hmax : max (((splitChar content '\n').length : Int) + -(k : Int)) 0 =
      (((splitChar content '\n').length - k : Nat) : Int) := by
    omega
  rw [hmax]
  simp

/-- Counterexample for C3: setting the bare scheme tag id: succeeds and
stores the empty string, but the subsequent get fails because the stored
empty string is falsy in JavaScript, so the round trip breaks for an input
that begins with the tag. -/
theorem setGet_roundtrip_cex :
    strStartsWith "id:" "id:" = true ∧
    handleSetNamespace "id:" none = (some "", .ok "Namespace set to: id:") ∧
    handleGetNamespace (handleSetNamespace "id:" none).1 =
      .error (.invalidParams noNsSetMsg) := by
  exact ⟨rfl, rfl, rfl⟩

/-- Claim C3 amended: for every input carrying the id: tag whose remainder
after the tag is non-empty, set succeeds and stores the remainder, and a
subsequent get returns exactly the input; the empty remainder is excluded
because the stored empty string is indistinguishable from an unset
namespace under JavaScript truthiness. -/
theorem setGet_roundtrip (t : String) (ns : Option String) (h : t ≠ "") :
    handleSetNamespace ("id:" ++ t) ns =
      (some t, .ok ("Namespace set to: " ++ ("id:" ++ t))) ∧
    handleGetNamespace (handleSetNamespace ("id:" ++ t) ns).1 =
      .ok ("id:" ++ t) := by
  have hset : handleSetNamespace ("id:" ++ t) ns =
      (some t, .ok ("Namespace set to: " ++ ("id:" ++ t))) := by
    unfold handleSetNamespace
    rw [strStartsWith_append, stripIdScheme_id]
    rfl
  refine ⟨hset, ?_⟩
  rw [hset]
  unfold handleGetNamespace
  rw [nsIsUnset_some h]
  rfl

/-- Witness for C3 amended at the round trip from the specification. -/
theorem setGet_roundtrip_witness :
    "core" ≠ "" ∧
    handleGetNamespace (handleSetNamespace ("id:" ++ "core") none).1 =
      .ok ("id:" ++ "core") := by
  exact ⟨by decide, (setGet_roundtrip "core" none (by decide)).2⟩

/-- Counterexample for C4: with the stored namespace equal to the empty
string (reachable by setting the bare tag id:), the shorthand fails with
the configuration error while the corresponding full path succeeds, so the
claimed equivalence does not hold for every stored namespace and leaf. -/
theorem shorthand_equiv_cex :
    (handleSetNamespace "id:" none).1 = some "" ∧
    idToEnsName "id:\x27sub" (some "") =
      .error (.invalidParams noNamespaceMsg) ∧
    idToEnsName ("id:" ++ "" ++ "." ++ "sub") (some "") = .ok "sub..eth" ∧
    idToEnsName "id:\x27sub" (some "") ≠
      idToEnsName ("id:" ++ "" ++ "." ++ "sub") (some "") := by
  refine ⟨rfl, rfl, by rfl, ?_⟩
  intro hcontra
  rw [show idToEnsName "id:\x27sub" (some "") =
        .error (.invalidParams noNamespaceMsg) from rfl] at hcontra
  rw [show idToEnsName ("id:" ++ "" ++ "." ++ "sub") (some "") =
        .ok "sub..eth" from by rfl] at hcontra
  simp at hcontra

/-- Claim C4 amended: shorthand and full path produce the same external
name for every stored namespace that is non-empty, does not itself begin
with the id: tag (idToEnsName strips that tag again from the stored value
but not from the middle of a full path), and does not begin with the
shorthand marker (which would make the full path re-enter shorthand
expansion), and for every leaf segment. -/
theorem shorthand_equiv (N L : String) (h1 : N ≠ "")
    (h2 : strStartsWith N "id:" = false)
    (h3 : strStartsWith N "\x27" = false) :
    idToEnsName ("id:" ++ "\x27" ++ L) (some N) =
      idToEnsName ("id:" ++ N ++ "." ++ L) (some N) := by
  have h4 : strStartsWith ((N ++ ".") ++ L) "\x27" = false := by
    rw [String.append_assoc,
      strStartsWith_char (show ("\x27" : String).data = ['\x27'] from rfl) N
        ("." ++ L) (data_ne_nil h1)]
    exact h3
  have h5 : ("\x27" ++ L).drop 1 = L := drop_append "\x27" L
  have hstripL : stripScheme (("id:" ++ "\x27") ++ L) = "\x27" ++ L := by
    rw [String.append_assoc]
    exact stripScheme_id ("\x27" ++ L)
  have hstripR : stripScheme ((("id:" ++ N) ++ ".") ++ L) = (N ++ ".") ++ L := by
    rw [String.append_assoc "id:" N ".", String.append_assoc "id:" (N ++ ".") L]
    exact stripScheme_id ((N ++ ".") ++ L)
  simp only [idToEnsName, Option.getD_some, hstripL, hstripR,
    strStartsWith_append "\x27" L, h4, nsIsUnset_some h1,
    stripIdScheme_of_not N h2, h5]
  simp

/-- Witness for C4 amended at the example from the specification. -/
theorem shorthand_equiv_witness :
    "idreg" ≠ "" ∧ strStartsWith "idreg" "id:" = false ∧
    strStartsWith "idreg" "\x27" = false ∧
    idToEnsName ("id:" ++ "\x27" ++ "subname") (some "idreg") =
      .ok "subname.idreg.eth" := by
  refine ⟨by decide, by rfl, by rfl, ?_⟩
  have h := shorthand_equiv "idreg" "subname" (by decide) (by rfl) (by rfl)
  exact h.trans (by rfl)

/-- Claim C7: a shorthand identifier under either recognized prefix (id:
or idx:), invoked with no namespace set, fails with the configuration
error and leaves the state unchanged, through the plain tool and through
the execution variant, for every fetch oracle, so the failing invocation
performs no network lookup. -/
theorem shorthand_noNamespace_error (rpcUrl : String)
    (fetch : String → Except Err String) (L : String) (sl : Int)
    (h : (rpcUrl == rpcPlaceholder) = false) :
    handleIdTool rpcUrl fetch none ⟨"id:\x27" ++ L, sl⟩ =
      (none, .error (.invalidParams noNamespaceMsg)) ∧
    handleIdTool rpcUrl fetch none ⟨"idx:\x27" ++ L, sl⟩ =
      (none, .error (.invalidParams noNamespaceMsg)) ∧
    handleIdxTool rpcUrl fetch none ⟨"id:\x27" ++ L, sl⟩ =
      (none, .error (.invalidParams noNamespaceMsg)) ∧
    handleIdxTool rpcUrl fetch none ⟨"idx:\x27" ++ L, sl⟩ =
      (none, .error (.invalidParams noNamespaceMsg)) := by
  have hassoc : ("id:\x27" ++ L : String) = "id:" ++ ("\x27" ++ L) := by
    rw [show ("id:\x27" : String) = "id:" ++ "\x27" from rfl, String.append_assoc]
  have hassoc2 : ("idx:\x27" ++ L : String) = "idx:" ++ ("\x27" ++ L) := by
    rw [show ("idx:\x27" : String) = "idx:" ++ "\x27" from rfl, String.append_assoc]
  have hstrip : stripScheme ("id:\x27" ++ L) = "\x27" ++ L := by
    rw [hassoc]
    exact stripScheme_id ("\x27" ++ L)
  have hstrip2 : stripScheme ("idx:\x27" ++ L) = "\x27" ++ L := by
    rw [hassoc2]
    exact stripScheme_idx ("\x27" ++ L)
  have hpre : strStartsWith ("id:\x27" ++ L) "id:" = true := by
    rw [hassoc]
    exact strStartsWith_append "id:" ("\x27" ++ L)
  have hpre2 : strStartsWith ("idx:\x27" ++ L) "idx:" = true := by
    rw [hassoc2]
    exact strStartsWith_append "idx:" ("\x27" ++ L)
  have hparse : parseIdAndUpdateNamespace ("id:\x27" ++ L) none = none := by
    simp only [parseIdAndUpdateNamespace, hstrip, strStartsWith_append "\x27" L]
    simp
  have hparse2 : parseIdAndUpdateNamespace ("idx:\x27" ++ L) none = none := by
    simp only [parseIdAndUpdateNamespace, hstrip2, strStartsWith_append "\x27" L]
    simp
  have hens : idToEnsName ("id:\x27" ++ L) none =
      .error (.invalidParams noNamespaceMsg) := by
    simp only [idToEnsName, hstrip, strStartsWith_append "\x27" L]
    simp [nsIsUnset]
  have hens2 : idToEnsName ("idx:\x27" ++ L) none =
      .error (.invalidParams noNamespaceMsg) := by
    simp only [idToEnsName, hstrip2, strStartsWith_append "\x27" L]
    simp [nsIsUnset]
  have hid1 : handleIdTool rpcUrl fetch none ⟨"id:\x27" ++ L, sl⟩ =
      (none, .error (.invalidParams noNamespaceMsg)) := by
    unfold handleIdTool
    rw [if_neg (by simp [h]), if_neg (by simp [hpre])]
    simp only [hparse, hens]
  have hid2 : handleIdTool rpcUrl fetch none ⟨"idx:\x27" ++ L, sl⟩ =
      (none, .error (.invalidParams noNamespaceMsg)) := by
    unfold handleIdTool
    rw [if_neg (by simp [h]), if_neg (by simp [hpre2])]
    simp only [hparse2, hens2]
  have hdelegate : ∀ args : ToolArgs,
      handleIdTool rpcUrl fetch none args =
        (none, .error (.invalidParams noNamespaceMsg)) →
      handleIdxTool rpcUrl fetch none args =
        (none, .error (.invalidParams noNamespaceMsg)) := by
    intro args hid
    unfold handleIdxTool
    rw [hid]
  exact ⟨hid1, hid2, hdelegate _ hid1, hdelegate _ hid2⟩

/-- Witness for C7 at a configured RPC URL and the leaf subname, under
both prefixes and both tools. -/
theorem shorthand_noNamespace_witness :
    ("u" == rpcPlaceholder) = false ∧
    handleIdTool "u" (constFetch "x") none
        ⟨"id:\x27" ++ "subname", 0⟩ =
      (none, .error (.invalidParams noNamespaceMsg)) ∧
    handleIdxTool "u" (constFetch "x") none
        ⟨"idx:\x27" ++ "subname", 0⟩ =
      (none, .error (.invalidParams noNamespaceMsg)) := by
  refine ⟨by rfl, ?_, ?_⟩
  · exact (shorthand_noNamespace_error "u" (constFetch "x") "subname" 0 (by rfl)).1
  · exact (shorthand_noNamespace_error "u" (constFetch "x") "subname" 0 (by rfl)).2.2.2

/-- Witness for C10 at the content a b c with start line minus two. -/
theorem extractLines_negative_witness :
    0 < 2 ∧ 2 ≤ (splitChar "a\nb\nc" '\n').length ∧
    extractLines "a\nb\nc" (-(2 : Int)) = "b\nc" := by
  refine ⟨by decide, by decide, ?_⟩
  have h := extractLines_negative_slice "a\nb\nc" 2 (by decide) (by decide)
  exact h.trans (by decide)

/-- Parsing the same identifier twice gives the same namespace update as
parsing it once: the update value depends only on the identifier. -/
theorem parse_idem (id : String) (ns : Option String) :
    parseIdAndUpdateNamespace id (parseIdAndUpdateNamespace id ns) =
      parseIdAndUpdateNamespace id ns := by
  simp only [parseIdAndUpdateNamespace]
  split_ifs <;> rfl

/-- Closed-form characterization of the namespace update. -/
theorem parse_eq (id : String) (ns : Option String) :
    parseIdAndUpdateNamespace id ns =
      if strStartsWith (stripScheme id) "\x27" = false ∧
          strIncludes (stripScheme id) "." = true ∧
          2 ≤ (splitChar (stripScheme id) '.').length
      then some (String.intercalate "."
        ((splitChar (stripScheme id) '.').dropLast))
      else ns := by
  simp only [parseIdAndUpdateNamespace]
  by_cases h1 : strStartsWith (stripScheme id) "\x27" = true
  · rw [if_neg (by simp [h1]), if_neg (by simp [h1])]
  · have h1f : strStartsWith (stripScheme id) "\x27" = false := by
      simp only [Bool.not_eq_true] at h1
      exact h1
    by_cases h2 : strIncludes (stripScheme id) "." = true
    · by_cases h3 : 2 ≤ (splitChar (stripScheme id) '.').length
      · rw [if_pos (by simp [h1f, h2]), if_pos h3, if_pos ⟨h1f, h2, h3⟩]
      · rw [if_pos (by simp [h1f, h2]), if_neg h3,
          if_neg (by rintro ⟨-, -, hc⟩; exact h3 hc)]
    · rw [if_neg (by simp [h1f, h2]), if_neg (by rintro ⟨-, hb, -⟩; exact h2 hb)]

/-- The namespace component of the plain tool: unchanged behind either
gate, and otherwise exactly the parser update, whatever the name
conversion or the fetch return. -/
theorem idTool_ns (rpcUrl : String) (fetch : String → Except Err String)
    (ns : Option String) (a : ToolArgs) :
    (handleIdTool rpcUrl fetch ns a).1 =
      if (rpcUrl == rpcPlaceholder) = true then ns
      else if (!strStartsWith a.id "id:" && !strStartsWith a.id "idx:") = true then ns
      else parseIdAndUpdateNamespace a.id ns := by
  simp only [handleIdTool]
  split_ifs with h1 h2
  · rfl
  · rfl
  · cases hE : idToEnsName a.id (parseIdAndUpdateNamespace a.id ns) with
    | error e => simp
    | ok en =>
      cases hF : fetch en with
      | error e => simp [hF]
      | ok content => simp [hF]

/-- Calling the plain tool again from the state it produced returns the
same state and the same result. -/
theorem idTool_stable (rpcUrl : String) (fetch : String → Except Err String)
    (ns : Option String) (a : ToolArgs) :
    handleIdTool rpcUrl fetch (handleIdTool rpcUrl fetch ns a).1 a =
      handleIdTool rpcUrl fetch ns a := by
  rw [idTool_ns]
  by_cases h1 : (rpcUrl == rpcPlaceholder) = true
  · rw [if_pos h1]
  · by_cases h2 : (!strStartsWith a.id "id:" && !strStartsWith a.id "idx:") = true
    · rw [if_neg h1, if_pos h2]
    · rw [if_neg h1, if_neg h2]
      unfold handleIdTool
      simp only [if_neg h1, if_neg h2, parse_idem]

/-- The execution variant moves the namespace exactly as the plain tool
does. -/
theorem idxTool_ns (rpcUrl : String) (fetch : String → Except Err String)
    (ns : Option String) (a : ToolArgs) :
    (handleIdxTool rpcUrl fetch ns a).1 = (handleIdTool rpcUrl fetch ns a).1 := by
  unfold handleIdxTool
  have hst := idTool_stable rpcUrl fetch ns a
  rcases hpair : handleIdTool rpcUrl fetch ns a with ⟨ns1, res⟩
  rw [hpair] at hst
  simp only at hst
  cases res with
  | error e => simp
  | ok t =>
    simp only [hst]

/-- Counterexample for C5: with the placeholder RPC configuration and an
identifier lacking both prefixes, the caller receives the RPC
configuration error, not the missing-prefix validation error, because the
placeholder gate runs first. -/
theorem gate_order_cex :
    (handleIdTool rpcPlaceholder (constFetch "") none
        ⟨"invalid-format", 0⟩).2 = .error (.invalidParams rpcConfigMsg) ∧
    rpcConfigMsg ≠ missingSchemeMsg := by
  exact ⟨rfl, by decide⟩

/-- Claim C5 amended: the RPC placeholder gate precedes prefix validation.
With the placeholder configuration both tools fail with the configuration
error whatever the identifier; with a configured RPC and an identifier
lacking both recognized prefixes, both tools fail with the missing-prefix
validation error before any other processing. -/
theorem gate_order (rpcUrl : String) (fetch : String → Except Err String)
    (ns : Option String) (a : ToolArgs) :
    ((rpcUrl == rpcPlaceholder) = true →
      (handleIdTool rpcUrl fetch ns a).2 = .error (.invalidParams rpcConfigMsg) ∧
      (handleIdxTool rpcUrl fetch ns a).2 = .error (.invalidParams rpcConfigMsg)) ∧
    ((rpcUrl == rpcPlaceholder) = false →
      strStartsWith a.id "id:" = false → strStartsWith a.id "idx:" = false →
      (handleIdTool rpcUrl fetch ns a).2 = .error (.invalidParams missingSchemeMsg) ∧
      (handleIdxTool rpcUrl fetch ns a).2 = .error (.invalidParams missingSchemeMsg)) := by
  constructor
  · intro h
    have hid : handleIdTool rpcUrl fetch ns a =
        (ns, .error (.invalidParams rpcConfigMsg)) := by
      unfold handleIdTool
      rw [if_pos h]
    refine ⟨by rw [hid], ?_⟩
    unfold handleIdxTool
    rw [hid]
  · intro h h1 h2
    have hid : handleIdTool rpcUrl fetch ns a =
        (ns, .error (.invalidParams missingSchemeMsg)) := by
      unfold handleIdTool
      rw [if_neg (by simp [h]), if_pos (by simp [h1, h2])]
    refine ⟨by rw [hid], ?_⟩
    unfold handleIdxTool
    rw [hid]

/-- Witness for C5 amended: both branches at concrete inputs. -/
theorem gate_order_witness :
    (handleIdTool rpcPlaceholder (constFetch "r") (some "q")
        ⟨"no-scheme-here", 3⟩).2 = .error (.invalidParams rpcConfigMsg) ∧
    (handleIdxTool "https://example" (constFetch "r") (some "q")
        ⟨"no-scheme-here", 3⟩).2 = .error (.invalidParams missingSchemeMsg) := by
  refine ⟨?_, ?_⟩
  · exact ((gate_order rpcPlaceholder (constFetch "r") (some "q")
      ⟨"no-scheme-here", 3⟩).1 (by rfl)).1
  · exact ((gate_order "https://example" (constFetch "r") (some "q")
      ⟨"no-scheme-here", 3⟩).2 (by rfl) (by rfl) (by rfl)).2

/-- Counterexample for C9: two invocations whose fetched, line-sliced
content is identical (the oracle returns hello for every name, the start
line is zero) select different hints, because the sniffed text is the full
formatted response and so contains the identifier and the derived external
name. -/
theorem idx_hint_cex :
    extractLines "hello" 0 = extractLines "hello" 0 ∧
    (handleIdxTool "u" (constFetch "hello") none ⟨"id:a.b", 0⟩).2 =
      .ok "--- IDX Execution Context ---\nID: id:a.b\nENS Name: b.a.eth\nSource: ENS Text Record (root-context)\nStart Line: 0\n\n--- Content ---\nhello\n\n--- Execution Ready ---\nThis content is prepared for immediate execution.\n💡 Create the appropriate file and execute immediately" ∧
    (handleIdxTool "u" (constFetch "hello") none ⟨"id:node.b", 0⟩).2 =
      .ok "--- IDX Execution Context ---\nID: id:node.b\nENS Name: b.node.eth\nSource: ENS Text Record (root-context)\nStart Line: 0\n\n--- Content ---\nhello\n\n--- Execution Ready ---\nThis content is prepared for immediate execution.\n💡 Suggested execution: `node filename.js` (replace with your desired filename)" ∧
    executionSuggestion
        (getText (handleIdTool "u" (constFetch "hello") none ⟨"id:a.b", 0⟩)) ≠
      executionSuggestion
        (getText (handleIdTool "u" (constFetch "hello") none ⟨"id:node.b", 0⟩)) := by
  refine ⟨rfl, by rfl, by rfl, by decide⟩

/-- Claim C9 amended: the execution hint is a function of the full
formatted plain-tool response text, which embeds the identifier and the
external name in its metadata header, not of the fetched sliced content
alone: whenever the plain tool succeeds with text t, the execution
variant succeeds and appends exactly the hint sniffed from t, so equal
response texts give equal hints. -/
theorem idx_hint_from_response (rpcUrl : String)
    (fetch : String → Except Err String) (ns : Option String) (a : ToolArgs)
    (t : String) (h : (handleIdTool rpcUrl fetch ns a).2 = .ok t) :
    (handleIdxTool rpcUrl fetch ns a).2 =
      .ok (replaceFirst t "--- ID Metadata ---" "--- IDX Execution Context ---" ++
        "\n\n--- Execution Ready ---\nThis content is prepared for immediate execution.\n" ++
        executionSuggestion t) := by
  have hst := idTool_stable rpcUrl fetch ns a
  rcases hpair : handleIdTool rpcUrl fetch ns a with ⟨ns1, res⟩
  rw [hpair] at hst h
  dsimp only at hst h
  subst h
  unfold handleIdxTool
  simp only [hpair, hst]

/-- Witness for C9 amended at a concrete successful run. -/
theorem idx_hint_from_response_witness :
    (handleIdTool "u" (constFetch "hello") none ⟨"id:a.b", 0⟩).2 =
      .ok "--- ID Metadata ---\nID: id:a.b\nENS Name: b.a.eth\nSource: ENS Text Record (root-context)\nStart Line: 0\n\n--- Content ---\nhello" ∧
    (handleIdxTool "u" (constFetch "hello") none ⟨"id:a.b", 0⟩).2 =
      .ok (replaceFirst "--- ID Metadata ---\nID: id:a.b\nENS Name: b.a.eth\nSource: ENS Text Record (root-context)\nStart Line: 0\n\n--- Content ---\nhello"
          "--- ID Metadata ---" "--- IDX Execution Context ---" ++
        "\n\n--- Execution Ready ---\nThis content is prepared for immediate execution.\n" ++
        executionSuggestion "--- ID Metadata ---\nID: id:a.b\nENS Name: b.a.eth\nSource: ENS Text Record (root-context)\nStart Line: 0\n\n--- Content ---\nhello") := by
  refine ⟨by rfl, ?_⟩
  exact idx_hint_from_response "u" (constFetch "hello") none
    ⟨"id:a.b", 0⟩ _ (by rfl)

/-- Claim C2: the namespace cell is written only by the explicit setter
and by the implicit update of the two resolution tools on a full path of
two or more segments; that update stores all segments but the last,
dot-joined, and shorthand or single-segment identifiers leave the state
unchanged. The full-path condition is rendered, as in the code, by the
dot-containment guard together with the two-or-more-parts test; for every
actual string the two coincide. -/
theorem nsState_sole_writers (rpcUrl : String)
    (fetch : String → Except Err String) (op : Op) (ns : Option String) :
    (∀ a, op = Op.callId a ∨ op = Op.callIdx a →
      (rpcUrl == rpcPlaceholder) = false →
      (!strStartsWith a.id "id:" && !strStartsWith a.id "idx:") = false →
      ((strStartsWith (stripScheme a.id) "\x27" = false →
        strIncludes (stripScheme a.id) "." = true →
        2 ≤ (splitChar (stripScheme a.id) '.').length →
        (stepNs rpcUrl fetch op ns).1 =
          some (String.intercalate "."
            ((splitChar (stripScheme a.id) '.').dropLast))) ∧
       (strStartsWith (stripScheme a.id) "\x27" = true ∨
          (splitChar (stripScheme a.id) '.').length = 1 →
        (stepNs rpcUrl fetch op ns).1 = ns))) ∧
    (op = Op.callGet → (stepNs rpcUrl fetch op ns).1 = ns) ∧
    ((stepNs rpcUrl fetch op ns).1 ≠ ns →
      (∃ v, op = Op.callSet v) ∨
      ∃ a, (op = Op.callId a ∨ op = Op.callIdx a) ∧
        strStartsWith (stripScheme a.id) "\x27" = false ∧
        2 ≤ (splitChar (stripScheme a.id) '.').length) := by
  have hstep : ∀ a, (op = Op.callId a ∨ op = Op.callIdx a) →
      (stepNs rpcUrl fetch op ns).1 =
        if (rpcUrl == rpcPlaceholder) = true then ns
        else if (!strStartsWith a.id "id:" && !strStartsWith a.id "idx:") = true then ns
        else parseIdAndUpdateNamespace a.id ns := by
    rintro a (rfl | rfl)
    · exact idTool_ns rpcUrl fetch ns a
    · have hdel : stepNs rpcUrl fetch (Op.callIdx a) ns =
          handleIdxTool rpcUrl fetch ns a := rfl
      rw [hdel, idxTool_ns]
      exact idTool_ns rpcUrl fetch ns a
  refine ⟨?_, ?_, ?_⟩
  · intro a hop hr hp
    have hns : (stepNs rpcUrl fetch op ns).1 =
        parseIdAndUpdateNamespace a.id ns := by
      rw [hstep a hop, if_neg (by simp [hr]), if_neg (by simp [hp])]
    constructor
    · intro hA hB hC
      rw [hns, parse_eq, if_pos ⟨hA, hB, hC⟩]
    · intro hD
      rw [hns, parse_eq]
      have hcf : ¬(strStartsWith (stripScheme a.id) "\x27" = false ∧
          strIncludes (stripScheme a.id) "." = true ∧
          2 ≤ (splitChar (stripScheme a.id) '.').length) := by
        rintro ⟨hA1, -, hC1⟩
        rcases hD with hD | hD
        · rw [hD] at hA1
          exact absurd hA1 (by decide)
        · rw [hD] at hC1
          exact absurd hC1 (by decide)
      rw [if_neg hcf]
  · rintro rfl
    rfl
  · intro hne
    cases op with
    | callSet v => exact Or.inl ⟨v, rfl⟩
    | callGet => exact absurd rfl hne
    | callId a =>
      refine Or.inr ⟨a, Or.inl rfl, ?_⟩
      by_cases hr : (rpcUrl == rpcPlaceholder) = true
      · exact absurd (by rw [hstep a (Or.inl rfl), if_pos hr]) hne
      · by_cases hp : (!strStartsWith a.id "id:" && !strStartsWith a.id "idx:") = true
        · exact absurd (by rw [hstep a (Or.inl rfl), if_neg hr, if_pos hp]) hne
        · have hns : (stepNs rpcUrl fetch (Op.callId a) ns).1 =
              parseIdAndUpdateNamespace a.id ns := by
            rw [hstep a (Or.inl rfl), if_neg hr, if_neg hp]
          rw [hns, parse_eq] at hne
          by_cases hcond : strStartsWith (stripScheme a.id) "\x27" = false ∧
              strIncludes (stripScheme a.id) "." = true ∧
              2 ≤ (splitChar (stripScheme a.id) '.').length
          · exact ⟨hcond.1, hcond.2.2⟩
          · rw [if_neg hcond] at hne
            exact absurd rfl hne
    | callIdx a =>
      refine Or.inr ⟨a, Or.inr rfl, ?_⟩
      by_cases hr : (rpcUrl == rpcPlaceholder) = true
      · exact absurd (by rw [hstep a (Or.inr rfl), if_pos hr]) hne
      · by_cases hp : (!strStartsWith a.id "id:" && !strStartsWith a.id "idx:") = true
        · exact absurd (by rw [hstep a (Or.inr rfl), if_neg hr, if_pos hp]) hne
        · have hns : (stepNs rpcUrl fetch (Op.callIdx a) ns).1 =
              parseIdAndUpdateNamespace a.id ns := by
            rw [hstep a (Or.inr rfl), if_neg hr, if_neg hp]
          rw [hns, parse_eq] at hne
          by_cases hcond : strStartsWith (stripScheme a.id) "\x27" = false ∧
              strIncludes (stripScheme a.id) "." = true ∧
              2 ≤ (splitChar (stripScheme a.id) '.').length
          · exact ⟨hcond.1, hcond.2.2⟩
          · rw [if_neg hcond] at hne
            exact absurd rfl hne

/-- Witness for C2 at a three-segment full path resolved from an empty
state: the namespace becomes the first two segments, dot-joined. -/
theorem nsState_sole_writers_witness :
    (stepNs "u" (constFetch "c") (Op.callId ⟨"id:a.b.c", 0⟩) none).1 =
      some "a.b" := by
  have h := ((nsState_sole_writers "u" (constFetch "c")
      (Op.callId ⟨"id:a.b.c", 0⟩) none).1 ⟨"id:a.b.c", 0⟩ (Or.inl rfl)
      (by rfl) (by rfl)).1 (by rfl) (by rfl) (by decide)
  exact h.trans (by rfl)

end IdMcp
